import Mathlib

/-!
Chequebook and swap API handlers of `pkg/api/chequebook.go`.

A shallow embedding of the eight HTTP handlers of the file.

* A handler is a function of the request, of the results its collaborators
  (`s.chequebook`, `s.swap`) return, and, for the cashout handler, of the state
  of the admission gate `s.cashOutChequeSem`.
* What a handler does is recorded as a trace of events in program order:
  collaborator calls, log lines, responses written to the `http.ResponseWriter`
  and operations on the gate.
* A response is recorded as the `jsonhttp` responder that was called and the
  value it was given.
* Go `error` values are chains of wrappers ending in a leaf; `errors.Is` walks
  the chain, `==` compares the outermost value only.
-/

namespace Bee

/-! ## Go errors -/

/-- The sentinel error values the handlers compare against
(`postagecontract.ErrChainDisabled`, `chequebook.ErrNoCheque`,
`chequebook.ErrNoCashout`, `chequebook.ErrInsufficientFunds`,
`swap.ErrNoChequebook`). -/
inductive Sentinel
  | ErrChainDisabled
  | ErrNoCheque
  | ErrNoCashout
  | ErrInsufficientFunds
  | ErrNoChequebook
  deriving DecidableEq, Repr

/-- A non-nil Go `error`: one of the sentinels, some other leaf error, or an
error wrapping another one (as `fmt.Errorf` with `%w` builds). Each error
unwraps to at most one error; error types with an `Is` method of their own are
not covered. -/
inductive GoError
  | sentinel (s : Sentinel)
  | other (msg : String)
  | wrap (msg : String) (inner : GoError)
  deriving DecidableEq, Repr

/-- Go `errors.Is(err, target)` for a non-nil `err` and a sentinel target:
compare, then unwrap and repeat. -/
def errorsIs : GoError → Sentinel → Bool
  | .sentinel s, t => decide (s = t)
  | .other _, _ => false
  | .wrap _ inner, t => errorsIs inner t

/-- Go `err == target` for a non-nil `err` and a sentinel target: identity of
the outermost error value, no unwrapping. -/
def errEq (err : GoError) (t : Sentinel) : Bool :=
  decide (err = GoError.sentinel t)

/-! ## Values exchanged with the collaborators -/

/-- A `common.Address` (20 bytes, held as a number). -/
structure EthAddress where
  val : Nat
  deriving DecidableEq, Repr

/-- A `common.Hash` (32 bytes, held as a number). -/
structure Hash where
  val : Nat
  deriving DecidableEq, Repr

/-- Modelled from the spec: the type `swarm.Address` (declared in package
`pkg/swarm`), a peer identity: the bytes of the overlay address. -/
structure SwarmAddress where
  bytes : List Nat
  deriving DecidableEq, Repr

/-- Modelled from the spec: the type `chequebook.Cheque` (declared in package
`pkg/settlement/swap/chequebook`), the Cheque of the data model, with the
fields the handlers read. -/
structure Cheque where
  Beneficiary : EthAddress
  Chequebook : EthAddress
  CumulativePayout : Int
  deriving DecidableEq, Repr

/-- Modelled from the spec: the type `chequebook.SignedCheque` (declared in
package `pkg/settlement/swap/chequebook`): a cheque and its signature bytes. -/
structure SignedCheque where
  Cheque : Cheque
  Signature : List Nat
  deriving DecidableEq, Repr

/-- Modelled from the spec: the type `chequebook.CashoutResult` (declared in
package `pkg/settlement/swap/chequebook`), the CashoutResult of the data model,
with the fields the handlers read. -/
structure CashoutResult where
  Recipient : EthAddress
  TotalPayout : Int
  Bounced : Bool
  deriving DecidableEq, Repr

/-- Modelled from the spec: the type `chequebook.LastCashout` (declared in
package `pkg/settlement/swap/chequebook`), the CashoutAttempt of the data model,
with the fields the handlers read. -/
structure LastCashout where
  TxHash : Hash
  Cheque : SignedCheque
  Result : Option CashoutResult
  deriving DecidableEq, Repr

/-- Modelled from the spec: the type `chequebook.CashoutStatus` (declared in
package `pkg/settlement/swap/chequebook`): the last attempt, if any, and the
derived uncashed amount. -/
structure CashoutStatus where
  Last : Option LastCashout
  UncashedAmount : Int
  deriving DecidableEq, Repr

/-! ## Request context (`pkg/sctx`) -/

/-- The part of a `context.Context` the handlers touch: the two values
`pkg/sctx` stores in it. `none` means the key is not set, which the spec reads
as "use the submitter default". -/
structure Context where
  gasPrice : Option Int
  gasLimit : Option Nat
  deriving DecidableEq, Repr

/-- Modelled from the spec: `sctx.SetGasPrice` (package `pkg/sctx`), which
stores the per-call gas price override in the context. -/
def SetGasPrice (ctx : Context) (p : Int) : Context :=
  { ctx with gasPrice := some p }

/-- Modelled from the spec: `sctx.SetGasLimit` (package `pkg/sctx`), which
stores the per-call gas limit override in the context. -/
def SetGasLimit (ctx : Context) (l : Nat) : Context :=
  { ctx with gasLimit := some l }

/-! ## Parsing done by the handlers (library functions) -/

/-- Value of a decimal digit. -/
def digitVal (c : Char) : Option Nat :=
  if 48 ≤ c.toNat ∧ c.toNat ≤ 57 then some (c.toNat - 48) else none

/-- Read a run of decimal digits, most significant first; `none` at any other
character. -/
def scanDigits : List Char → Nat → Option Nat
  | [], acc => some acc
  | c :: cs, acc =>
    match digitVal c with
    | none => none
    | some d => scanDigits cs (acc * 10 + d)

/-- One or more decimal digits, nothing else. -/
def parseDigits (cs : List Char) : Option Nat :=
  match cs with
  | [] => none
  | _ :: _ => scanDigits cs 0

/-- The call `big.NewInt(0).SetString(s, 10)` of `math/big`: an optional sign
`+` or `-`, then one or more decimal digits, and the whole string must be
consumed. `none` is the `ok == false` result. -/
def SetString10 (s : String) : Option Int :=
  match s.toList with
  | '-' :: cs => (parseDigits cs).map (fun n => -(n : Int))
  | '+' :: cs => (parseDigits cs).map (fun n => (n : Int))
  | cs => (parseDigits cs).map (fun n => (n : Int))

/-- The call `strconv.ParseUint(s, 10, 64)`: one or more decimal digits whose
value fits 64 bits. `none` is the `err != nil` result. -/
def ParseUint (s : String) : Option Nat :=
  match parseDigits s.toList with
  | none => none
  | some n => if n < 2 ^ 64 then some n else none

/-- Value of a hexadecimal digit (`reverseHexTable` of `encoding/hex`). -/
def hexVal (c : Char) : Option Nat :=
  let n := c.toNat
  if 48 ≤ n ∧ n ≤ 57 then some (n - 48)
  else if 97 ≤ n ∧ n ≤ 102 then some (n - 97 + 10)
  else if 65 ≤ n ∧ n ≤ 70 then some (n - 65 + 10)
  else none

/-- The call `hex.DecodeString`: pairs of hexadecimal digits; fails at a
character that is no hexadecimal digit and at an odd length. -/
def hexDecode : List Char → Option (List Nat)
  | [] => some []
  | [_] => none
  | p :: q :: rest =>
    match hexVal p, hexVal q with
    | some a, some b => (hexDecode rest).map (fun bs => (a * 16 + b) :: bs)
    | _, _ => none

/-- Modelled from the spec: `swarm.ParseHexAddress` (package `pkg/swarm`), the
address parser the spec leaves to a collaborator: it hex-decodes the string
and wraps the bytes. `none` is the `err != nil` result. -/
def ParseHexAddress (s : String) : Option SwarmAddress :=
  (hexDecode s.toList).map SwarmAddress.mk

/-! ## Response payloads (the structs of the source file) -/

structure chequebookBalanceResponse where
  TotalBalance : Int
  AvailableBalance : Int
  deriving DecidableEq, Repr

structure chequebookAddressResponse where
  Address : String
  deriving DecidableEq, Repr

structure chequebookLastChequePeerResponse where
  Beneficiary : String
  Chequebook : String
  Payout : Int
  deriving DecidableEq, Repr

structure chequebookLastChequesPeerResponse where
  Peer : String
  LastReceived : Option chequebookLastChequePeerResponse
  LastSent : Option chequebookLastChequePeerResponse
  deriving DecidableEq, Repr

structure chequebookLastChequesResponse where
  LastCheques : List chequebookLastChequesPeerResponse
  deriving DecidableEq, Repr

structure swapCashoutResponse where
  TransactionHash : String
  deriving DecidableEq, Repr

structure swapCashoutStatusResult where
  Recipient : EthAddress
  LastPayout : Int
  Bounced : Bool
  deriving DecidableEq, Repr

structure swapCashoutStatusResponse where
  Peer : SwarmAddress
  Cheque : Option chequebookLastChequePeerResponse
  TransactionHash : Option Hash
  Result : Option swapCashoutStatusResult
  UncashedAmount : Int
  deriving DecidableEq, Repr

structure chequebookTxResponse where
  TransactionHash : Hash
  deriving DecidableEq, Repr

/-! ## Message constants of the source file -/

def errChequebookBalance : String := "cannot get chequebook balance"
def errChequebookNoAmount : String := "did not specify amount"
def errChequebookNoWithdraw : String := "cannot withdraw"
def errChequebookNoDeposit : String := "cannot deposit"
def errChequebookInsufficientFunds : String := "insufficient funds"
def errCantLastChequePeer : String := "cannot get last cheque for peer"
def errCantLastCheque : String := "cannot get last cheque for all peers"
def errCannotCash : String := "cannot cash cheque"
def errCannotCashStatus : String := "cannot get cashout status"
def errNoCashout : String := "no prior cashout"
def errNoCheque : String := "no prior cheque"
def errBadGasPrice : String := "bad gas price"
def errBadGasLimit : String := "bad gas limit"

/-- Modelled from the spec: the constant `errInvalidAddress` of package `api`,
declared in another file of the package. The spec leaves address parsing to a
collaborator; only the identity of the message matters here. -/
def errInvalidAddress : String := "invalid address"

/-! ## Responses (`pkg/jsonhttp`) -/

/-- What a `jsonhttp` responder is given as its second argument. -/
inductive Body
  | message (msg : String)
  | err (e : GoError)
  | balance (r : chequebookBalanceResponse)
  | address (r : chequebookAddressResponse)
  | lastChequesPeer (r : chequebookLastChequesPeerResponse)
  | lastCheques (r : chequebookLastChequesResponse)
  | cashout (r : swapCashoutResponse)
  | cashoutStatus (r : swapCashoutStatusResponse)
  | tx (r : chequebookTxResponse)
  deriving DecidableEq, Repr

/-- The responders of `pkg/jsonhttp` the handlers call; each stands for one
outcome reported to the caller: success, bad request, not found, not permitted,
too many concurrent operations, internal error. -/
inductive Responder
  | OK
  | BadRequest
  | NotFound
  | MethodNotAllowed
  | TooManyRequests
  | InternalServerError
  deriving DecidableEq, Repr

/-- One response written to the `http.ResponseWriter`: the responder that was
called and the value it was given. -/
structure Response where
  responder : Responder
  body : Body
  deriving DecidableEq, Repr

namespace jsonhttp

/-- The call `jsonhttp.OK(w, b)`. -/
def OK (b : Body) : Response := ⟨.OK, b⟩

/-- The call `jsonhttp.BadRequest(w, b)`. -/
def BadRequest (b : Body) : Response := ⟨.BadRequest, b⟩

/-- The call `jsonhttp.NotFound(w, b)`. -/
def NotFound (b : Body) : Response := ⟨.NotFound, b⟩

/-- The call `jsonhttp.MethodNotAllowed(w, b)`. -/
def MethodNotAllowed (b : Body) : Response := ⟨.MethodNotAllowed, b⟩

/-- The call `jsonhttp.TooManyRequests(w, b)`. -/
def TooManyRequests (b : Body) : Response := ⟨.TooManyRequests, b⟩

/-- The call `jsonhttp.InternalServerError(w, b)`. -/
def InternalServerError (b : Body) : Response := ⟨.InternalServerError, b⟩

end jsonhttp

/-! ## Events, requests, collaborators -/

/-- A call a handler makes on one of its collaborators, with its arguments. -/
inductive Call
  | Balance (ctx : Context)
  | AvailableBalance (ctx : Context)
  | Address
  | LastSentCheque (peer : SwarmAddress)
  | LastReceivedCheque (peer : SwarmAddress)
  | LastSentCheques
  | LastReceivedCheques
  | CashCheque (ctx : Context) (peer : SwarmAddress)
  | CashoutStatus (ctx : Context) (peer : SwarmAddress)
  | Withdraw (ctx : Context) (amount : Int)
  | Deposit (ctx : Context) (amount : Int)
  deriving DecidableEq, Repr

/-- The logger methods the handlers use. -/
inductive LogLevel
  | debug
  | error
  deriving DecidableEq, Repr

/-- One observable step of a handler. -/
inductive Event
  /-- a collaborator method is invoked -/
  | call (c : Call)
  /-- a line goes to `s.logger` -/
  | log (lvl : LogLevel)
  /-- a `jsonhttp` responder writes a response -/
  | respond (r : Response)
  /-- the call `s.cashOutChequeSem.TryAcquire(1)` and its result -/
  | tryAcquire (ok : Bool)
  /-- the call `s.cashOutChequeSem.Release(1)` returns -/
  | release
  /-- the call `s.cashOutChequeSem.Release(1)` panics -/
  | releasePanic
  deriving DecidableEq, Repr

/-- What the handlers read from the `*http.Request`. -/
structure Request where
  /-- the value of `r.Context()` -/
  ctx : Context
  /-- the value of `mux.Vars(r)["peer"]` -/
  peer : String
  /-- the value of `r.URL.Query().Get("amount")`, empty when the parameter is
  absent -/
  amount : String
  /-- the header `Gas-Price`: `none` when `r.Header` has no such key, else the
  first value `price[0]` -/
  gasPrice : Option String
  /-- the header `Gas-Limit`: `none` when `r.Header` has no such key, else the
  first value `limit[0]` -/
  gasLimit : Option String

/-- A Go `map[string]V`: its entries in the order a `range` loop visits them.
The keys of a map are distinct. -/
abbrev GoMap (ν : Type) := List (String × ν)

/-- The collaborators of the handlers: for each method of `s.chequebook` and
`s.swap` the result it returns for given arguments (`Except.error` for a non-nil
`err`), and the two `String()` renderings of library types. -/
structure Service where
  Balance : Context → Except GoError Int
  AvailableBalance : Context → Except GoError Int
  Address : EthAddress
  Withdraw : Context → Int → Except GoError Hash
  Deposit : Context → Int → Except GoError Hash
  LastSentCheque : SwarmAddress → Except GoError SignedCheque
  LastReceivedCheque : SwarmAddress → Except GoError SignedCheque
  LastSentCheques : Except GoError (GoMap SignedCheque)
  LastReceivedCheques : Except GoError (GoMap SignedCheque)
  CashCheque : Context → SwarmAddress → Except GoError Hash
  CashoutStatus : Context → SwarmAddress → Except GoError CashoutStatus
  /-- the method `common.Address.String` -/
  addressString : EthAddress → String
  /-- the method `common.Hash.String` -/
  hashString : Hash → String

/-! ## The admission gate (`golang.org/x/sync/semaphore`) -/

/-- A `semaphore.Weighted`: its capacity and the weight currently held. The
handler only ever calls `TryAcquire` and `Release`, so the queue of blocked
acquirers of the library type stays empty and is left out. -/
structure Weighted where
  size : Int
  cur : Int
  deriving DecidableEq, Repr

/-- The method `TryAcquire(n)`: succeeds, taking `n`, when `size - cur >= n`;
otherwise leaves the semaphore as it is. Never blocks. -/
def Weighted.TryAcquire (s : Weighted) (n : Int) : Bool × Weighted :=
  if s.size - s.cur ≥ n then (true, { s with cur := s.cur + n }) else (false, s)

/-- The method `Release(n)`: gives `n` back; `none` is the panic
"released more than held" raised when `cur` would become negative. -/
def Weighted.Release (s : Weighted) (n : Int) : Option Weighted :=
  if s.cur - n < 0 then none else some { s with cur := s.cur - n }

/-! ## Go maps -/

/-- The keys of a map, in iteration order. -/
def mapKeys {ν : Type} (m : GoMap ν) : List String :=
  m.map Prod.fst

/-- The lookup `v, ok := m[k]`. -/
def mapGet {ν : Type} : GoMap ν → String → Option ν
  | [], _ => none
  | (k, v) :: rest, key => if k = key then some v else mapGet rest key

/-- The assignment `m[k] = v`: overwrite the entry of `k`, or add one. -/
def mapSet {ν : Type} : GoMap ν → String → ν → GoMap ν
  | [], key, val => [(key, val)]
  | (k, v) :: rest, key, val =>
    if k = key then (k, val) :: rest else (k, v) :: mapSet rest key val

/-! ## The handlers -/

/-- The handler `chequebookBalanceHandler` (source lines 70-94). -/
def chequebookBalanceHandler (s : Service) (r : Request) : List Event :=
  Event.call (.Balance r.ctx) ::
  match s.Balance r.ctx with
  | .error err =>
    if errorsIs err .ErrChainDisabled then
      [Event.log .debug, Event.log .error, Event.respond (jsonhttp.MethodNotAllowed (.err err))]
    else
      [Event.respond (jsonhttp.InternalServerError (.message errChequebookBalance)),
        Event.log .debug, Event.log .error]
  | .ok balance =>
    Event.call (.AvailableBalance r.ctx) ::
    match s.AvailableBalance r.ctx with
    | .error _ =>
      [Event.respond (jsonhttp.InternalServerError (.message errChequebookBalance)),
        Event.log .debug, Event.log .error]
    | .ok availableBalance =>
      [Event.respond (jsonhttp.OK (.balance
        { TotalBalance := balance, AvailableBalance := availableBalance }))]

/-- The handler `chequebookAddressHandler` (source lines 96-99). -/
def chequebookAddressHandler (s : Service) (_r : Request) : List Event :=
  let address := s.Address
  [Event.call .Address, Event.respond (jsonhttp.OK (.address { Address := s.addressString address }))]

/-- The struct literal `&chequebookLastChequePeerResponse` the handlers build
from a signed cheque (source lines 126-130, 142-146, 185-189, 196-200,
206-210). -/
def lastChequeResponse (s : Service) (j : SignedCheque) : chequebookLastChequePeerResponse :=
  { Beneficiary := s.addressString j.Cheque.Beneficiary
    Chequebook := s.addressString j.Cheque.Chequebook
    Payout := j.Cheque.CumulativePayout }

/-- Second half of `chequebookLastPeerHandler` (source lines 133-153): the
received side and the response, given the `lastSentResponse` built so far. -/
def lastPeerReceived (s : Service) (addr : String) (peer : SwarmAddress)
    (lastSentResponse : Option chequebookLastChequePeerResponse) : List Event :=
  Event.call (.LastReceivedCheque peer) ::
  match s.LastReceivedCheque peer with
  | .error err =>
    if !errEq err .ErrNoCheque then
      [Event.log .debug, Event.log .error,
        Event.respond (jsonhttp.InternalServerError (.message errCantLastChequePeer))]
    else
      [Event.respond (jsonhttp.OK (.lastChequesPeer
        { Peer := addr, LastReceived := none, LastSent := lastSentResponse }))]
  | .ok lastReceived =>
    [Event.respond (jsonhttp.OK (.lastChequesPeer
      { Peer := addr
        LastReceived := some (lastChequeResponse s lastReceived)
        LastSent := lastSentResponse }))]

/-- The handler `chequebookLastPeerHandler` (source lines 101-154). -/
def chequebookLastPeerHandler (s : Service) (r : Request) : List Event :=
  let addr := r.peer
  match ParseHexAddress addr with
  | none =>
    [Event.log .debug, Event.log .error, Event.respond (jsonhttp.NotFound (.message errInvalidAddress))]
  | some peer =>
    Event.call (.LastSentCheque peer) ::
    match s.LastSentCheque peer with
    | .error err =>
      if errorsIs err .ErrChainDisabled then
        [Event.log .debug, Event.log .error, Event.respond (jsonhttp.MethodNotAllowed (.err err))]
      else if !errorsIs err .ErrNoCheque && !errorsIs err .ErrNoChequebook then
        [Event.log .debug, Event.log .error,
          Event.respond (jsonhttp.InternalServerError (.message errCantLastChequePeer))]
      else
        lastPeerReceived s addr peer none
    | .ok lastSent =>
      lastPeerReceived s addr peer (some (lastChequeResponse s lastSent))

/-- The zero value of `chequebookLastChequesPeerResponse`, what indexing a map
gives for a key it does not hold. -/
def zeroPeerResponse : chequebookLastChequesPeerResponse :=
  { Peer := "", LastReceived := none, LastSent := none }

/-- First loop of `chequebookAllLastHandler` (source lines 182-192), started
from the map `lcr` built so far. -/
def sentLoop (s : Service) (lastchequessent : GoMap SignedCheque)
    (lcr : GoMap chequebookLastChequesPeerResponse) :
    GoMap chequebookLastChequesPeerResponse :=
  lastchequessent.foldl
    (fun lcr ij =>
      mapSet lcr ij.1
        { Peer := ij.1, LastSent := some (lastChequeResponse s ij.2), LastReceived := none })
    lcr

/-- Second loop of `chequebookAllLastHandler` (source lines 193-213). -/
def receivedLoop (s : Service) (lastchequesreceived : GoMap SignedCheque)
    (lcr : GoMap chequebookLastChequesPeerResponse) :
    GoMap chequebookLastChequesPeerResponse :=
  lastchequesreceived.foldl
    (fun lcr ij =>
      match mapGet lcr ij.1 with
      | some t =>
        mapSet lcr ij.1 { t with LastReceived := some (lastChequeResponse s ij.2) }
      | none =>
        mapSet lcr ij.1
          { Peer := ij.1, LastSent := none, LastReceived := some (lastChequeResponse s ij.2) })
    lcr

/-- Third loop of `chequebookAllLastHandler` (source lines 215-220): one slot of
`lcresponses` per key of `lcr`, filled with `lcr[k]`. -/
def collectLoop (lcr : GoMap chequebookLastChequesPeerResponse) :
    List chequebookLastChequesPeerResponse :=
  (mapKeys lcr).map (fun k => (mapGet lcr k).getD zeroPeerResponse)

/-- The list `lcresponses` of `chequebookAllLastHandler` (source lines 181-220). -/
def mergeLastCheques (s : Service) (lastchequessent lastchequesreceived : GoMap SignedCheque) :
    List chequebookLastChequesPeerResponse :=
  let lcr : GoMap chequebookLastChequesPeerResponse := []
  let lcr := sentLoop s lastchequessent lcr
  let lcr := receivedLoop s lastchequesreceived lcr
  collectLoop lcr

/-- Second half of `chequebookAllLastHandler` (source lines 173-222), given the
map of sent cheques. -/
def allLastReceived (s : Service) (lastchequessent : GoMap SignedCheque) : List Event :=
  Event.call .LastReceivedCheques ::
  match s.LastReceivedCheques with
  | .error _ =>
    [Event.log .debug, Event.log .error,
      Event.respond (jsonhttp.InternalServerError (.message errCantLastCheque))]
  | .ok lastchequesreceived =>
    [Event.respond (jsonhttp.OK (.lastCheques
      { LastCheques := mergeLastCheques s lastchequessent lastchequesreceived }))]

/-- The handler `chequebookAllLastHandler` (source lines 156-223). -/
def chequebookAllLastHandler (s : Service) (_r : Request) : List Event :=
  Event.call .LastSentCheques ::
  match s.LastSentCheques with
  | .error err =>
    if errorsIs err .ErrChainDisabled then
      [Event.log .debug, Event.log .error, Event.respond (jsonhttp.MethodNotAllowed (.err err))]
    else if !errorsIs err .ErrNoChequebook then
      [Event.log .debug, Event.log .error,
        Event.respond (jsonhttp.InternalServerError (.message errCantLastCheque))]
    else
      allLastReceived s []
  | .ok lastchequessent => allLastReceived s lastchequessent

/-- The gas price block of the cashout, withdraw and deposit handlers (source
lines 240-248, 384-392, 427-435): the context to go on with, or `none` when
the header is there and is no base-10 integer. -/
def withGasPrice (ctx : Context) (header : Option String) : Option Context :=
  match header with
  | none => some ctx
  | some price =>
    match SetString10 price with
    | none => none
    | some p => some (SetGasPrice ctx p)

/-- The gas limit block of the cashout handler (source lines 250-259): the
context to go on with, or `none` when the header is there and does not parse. -/
def withGasLimit (ctx : Context) (header : Option String) : Option Context :=
  match header with
  | none => some ctx
  | some limit =>
    match ParseUint limit with
    | none => none
    | some l => some (SetGasLimit ctx l)

/-- The part of `swapCashoutHandler` that runs while the gate is held (source
lines 269-283). -/
def cashChequeAdmitted (s : Service) (ctx : Context) (peer : SwarmAddress) : List Event :=
  Event.call (.CashCheque ctx peer) ::
  match s.CashCheque ctx peer with
  | .error err =>
    if errorsIs err .ErrChainDisabled then
      [Event.log .debug, Event.log .error, Event.respond (jsonhttp.MethodNotAllowed (.err err))]
    else
      [Event.log .debug, Event.log .error,
        Event.respond (jsonhttp.InternalServerError (.message errCannotCash))]
  | .ok txHash =>
    [Event.respond (jsonhttp.OK (.cashout { TransactionHash := s.hashString txHash }))]

/-- The handler `swapCashoutHandler` (source lines 229-284), run on the gate
`sem`; it returns its trace and the gate as it leaves it. The deferred
`Release(1)` runs after the body that follows the admission. -/
def swapCashoutHandler (s : Service) (r : Request) (sem : Weighted) : List Event × Weighted :=
  let addr := r.peer
  match ParseHexAddress addr with
  | none =>
    ([Event.log .debug, Event.log .error, Event.respond (jsonhttp.NotFound (.message errInvalidAddress))], sem)
  | some peer =>
    match withGasPrice r.ctx r.gasPrice with
    | none => ([Event.log .error, Event.respond (jsonhttp.BadRequest (.message errBadGasPrice))], sem)
    | some ctx =>
      match withGasLimit ctx r.gasLimit with
      | none =>
        ([Event.log .debug, Event.log .error, Event.respond (jsonhttp.BadRequest (.message errBadGasLimit))], sem)
      | some ctx =>
        if (sem.TryAcquire 1).1 = false then
          ([Event.tryAcquire false, Event.log .debug, Event.log .error,
            Event.respond (jsonhttp.TooManyRequests
              (.message "simultaneous on-chain operations not supported"))],
            (sem.TryAcquire 1).2)
        else
          let held := (sem.TryAcquire 1).2
          let body := cashChequeAdmitted s ctx peer
          match held.Release 1 with
          | some freed => (Event.tryAcquire true :: body ++ [Event.release], freed)
          | none => (Event.tryAcquire true :: body ++ [Event.releasePanic], held)

/-- The handler `swapCashoutStatusHandler` (source lines 300-362). -/
def swapCashoutStatusHandler (s : Service) (r : Request) : List Event :=
  let addr := r.peer
  match ParseHexAddress addr with
  | none =>
    [Event.log .debug, Event.log .error, Event.respond (jsonhttp.NotFound (.message errInvalidAddress))]
  | some peer =>
    Event.call (.CashoutStatus r.ctx peer) ::
    match s.CashoutStatus r.ctx peer with
    | .error err =>
      if errorsIs err .ErrChainDisabled then
        [Event.log .debug, Event.log .error, Event.respond (jsonhttp.MethodNotAllowed (.err err))]
      else if errorsIs err .ErrNoCheque then
        [Event.log .debug, Event.log .error, Event.respond (jsonhttp.NotFound (.message errNoCheque))]
      else if errorsIs err .ErrNoCashout then
        [Event.log .debug, Event.log .error, Event.respond (jsonhttp.NotFound (.message errNoCashout))]
      else
        [Event.log .debug, Event.log .error,
          Event.respond (jsonhttp.InternalServerError (.message errCannotCashStatus))]
    | .ok status =>
      let result : Option swapCashoutStatusResult :=
        match status.Last with
        | none => none
        | some last =>
          match last.Result with
          | none => none
          | some res =>
            some { Recipient := res.Recipient, LastPayout := res.TotalPayout,
                   Bounced := res.Bounced }
      let chequeResponse : Option chequebookLastChequePeerResponse :=
        match status.Last with
        | none => none
        | some last =>
          some { Chequebook := s.addressString last.Cheque.Cheque.Chequebook
                 Payout := last.Cheque.Cheque.CumulativePayout
                 Beneficiary := s.addressString last.Cheque.Cheque.Beneficiary }
      let txHash : Option Hash :=
        match status.Last with
        | none => none
        | some last => some last.TxHash
      [Event.respond (jsonhttp.OK (.cashoutStatus
        { Peer := peer
          TransactionHash := txHash
          Cheque := chequeResponse
          Result := result
          UncashedAmount := status.UncashedAmount }))]

/-- The handler `chequebookWithdrawHandler` (source lines 368-409). -/
def chequebookWithdrawHandler (s : Service) (r : Request) : List Event :=
  let amountStr := r.amount
  if amountStr = "" then
    [Event.respond (jsonhttp.BadRequest (.message errChequebookNoAmount)), Event.log .error]
  else
    match SetString10 amountStr with
    | none => [Event.respond (jsonhttp.BadRequest (.message errChequebookNoAmount)), Event.log .error]
    | some amount =>
      match withGasPrice r.ctx r.gasPrice with
      | none => [Event.log .error, Event.respond (jsonhttp.BadRequest (.message errBadGasPrice))]
      | some ctx =>
        Event.call (.Withdraw ctx amount) ::
        match s.Withdraw ctx amount with
        | .error err =>
          if errorsIs err .ErrInsufficientFunds then
            [Event.respond (jsonhttp.BadRequest (.message errChequebookInsufficientFunds)),
              Event.log .debug, Event.log .error]
          else
            [Event.respond (jsonhttp.InternalServerError (.message errChequebookNoWithdraw)),
              Event.log .debug, Event.log .error]
        | .ok txHash => [Event.respond (jsonhttp.OK (.tx { TransactionHash := txHash }))]

/-- The handler `chequebookDepositHandler` (source lines 411-452). -/
def chequebookDepositHandler (s : Service) (r : Request) : List Event :=
  let amountStr := r.amount
  if amountStr = "" then
    [Event.respond (jsonhttp.BadRequest (.message errChequebookNoAmount)), Event.log .error]
  else
    match SetString10 amountStr with
    | none => [Event.respond (jsonhttp.BadRequest (.message errChequebookNoAmount)), Event.log .error]
    | some amount =>
      match withGasPrice r.ctx r.gasPrice with
      | none => [Event.log .error, Event.respond (jsonhttp.BadRequest (.message errBadGasPrice))]
      | some ctx =>
        Event.call (.Deposit ctx amount) ::
        match s.Deposit ctx amount with
        | .error err =>
          if errorsIs err .ErrInsufficientFunds then
            [Event.respond (jsonhttp.BadRequest (.message errChequebookInsufficientFunds)),
              Event.log .debug, Event.log .error]
          else
            [Event.respond (jsonhttp.InternalServerError (.message errChequebookNoDeposit)),
              Event.log .debug, Event.log .error]
        | .ok txHash => [Event.respond (jsonhttp.OK (.tx { TransactionHash := txHash }))]

/-! ## Reading a trace -/

/-- The responses written, in order. -/
def responses : List Event → List Response
  | [] => []
  | .respond r :: rest => r :: responses rest
  | _ :: rest => responses rest

/-- The collaborator calls made, in order. -/
def calls : List Event → List Call
  | [] => []
  | .call c :: rest => c :: calls rest
  | _ :: rest => calls rest

/-- How many times `Release(1)` was called on the gate (returning or not). -/
def releases : List Event → Nat
  | [] => 0
  | .release :: rest => releases rest + 1
  | .releasePanic :: rest => releases rest + 1
  | _ :: rest => releases rest

/-- Nothing but log lines and gate operations: no response and no collaborator
call. -/
def quiet : List Event → Bool
  | [] => true
  | .respond _ :: _ => false
  | .call _ :: _ => false
  | _ :: rest => quiet rest

/-- The trace writes a response, and from that first response on it neither
responds again nor calls a collaborator. -/
def respondsOnceThenQuiet : List Event → Bool
  | [] => false
  | .respond _ :: rest => quiet rest
  | _ :: rest => respondsOnceThenQuiet rest

/-! ## Well-formed requests -/

/-- The peer address of the request is well-formed: it parses. -/
def peerOk (r : Request) : Bool :=
  (ParseHexAddress r.peer).isSome

/-- The gas price header is absent or a base-10 integer. -/
def gasPriceOk (r : Request) : Bool :=
  match r.gasPrice with
  | none => true
  | some price => (SetString10 price).isSome

/-- The gas limit header is absent or an unsigned 64-bit base-10 integer. -/
def gasLimitOk (r : Request) : Bool :=
  match r.gasLimit with
  | none => true
  | some limit => (ParseUint limit).isSome

/-- The context the handlers pass on for a request with well-formed gas
headers: the request context with the gas price of the header, if any. -/
def pricedCtx (r : Request) : Context :=
  match r.gasPrice with
  | none => r.ctx
  | some price =>
    match SetString10 price with
    | none => r.ctx
    | some p => SetGasPrice r.ctx p

/-- The context with the gas limit of the header put on top, if any. -/
def limitedCtx (ctx : Context) (r : Request) : Context :=
  match r.gasLimit with
  | none => ctx
  | some limit =>
    match ParseUint limit with
    | none => ctx
    | some l => SetGasLimit ctx l

/-- The capacity-1 gate with its one permit taken. -/
def gateHeld : Weighted := { size := 1, cur := 1 }

/-- The capacity-1 gate with its permit free. -/
def gateFree : Weighted := { size := 1, cur := 0 }

/-- The entry the merged listing is to hold for peer `p`, in the words of the
specification: the peer, its last sent cheque if the sent map has one, its last
received cheque if the received map has one. -/
def mergedEntry (s : Service) (sent received : GoMap SignedCheque) (p : String) :
    chequebookLastChequesPeerResponse :=
  { Peer := p
    LastReceived := (mapGet received p).map (lastChequeResponse s)
    LastSent := (mapGet sent p).map (lastChequeResponse s) }

/-! ## Sample inputs -/

/-- A signed cheque over `n`. -/
def sampleCheque (n : Nat) : SignedCheque :=
  { Cheque := { Beneficiary := ⟨n⟩, Chequebook := ⟨n + 1⟩, CumulativePayout := n }
    Signature := [] }

/-- Collaborators that all succeed. -/
def sampleService : Service :=
  { Balance := fun _ => .ok 100
    AvailableBalance := fun _ => .ok 70
    Address := ⟨7⟩
    Withdraw := fun _ _ => .ok ⟨11⟩
    Deposit := fun _ _ => .ok ⟨12⟩
    LastSentCheque := fun _ => .ok (sampleCheque 30)
    LastReceivedCheque := fun _ => .ok (sampleCheque 40)
    LastSentCheques := .ok [("aa", sampleCheque 1), ("bb", sampleCheque 2)]
    LastReceivedCheques := .ok [("bb", sampleCheque 3), ("cc", sampleCheque 4)]
    CashCheque := fun _ _ => .ok ⟨13⟩
    CashoutStatus := fun _ _ => .ok { Last := none, UncashedAmount := 0 }
    addressString := fun a => String.mk (List.replicate a.val (Char.ofNat 120))
    hashString := fun h => String.mk (List.replicate h.val (Char.ofNat 104)) }

/-- A request with a well-formed peer, amount and gas price and no gas limit. -/
def sampleRequest : Request :=
  { ctx := { gasPrice := none, gasLimit := none }
    peer := "ab12"
    amount := "5"
    gasPrice := some "10"
    gasLimit := none }

/-- Collaborators whose first call in every handler succeeds and whose later
calls (`AvailableBalance`, `LastReceivedCheque`, `LastReceivedCheques`) fail
with `ErrChainDisabled`. -/
def laterDisabledService : Service :=
  { sampleService with
    AvailableBalance := fun _ => .error (.sentinel .ErrChainDisabled)
    LastReceivedCheque := fun _ => .error (.sentinel .ErrChainDisabled)
    LastReceivedCheques := .error (.sentinel .ErrChainDisabled) }

/-- The error `ErrChainDisabled` wrapped once. -/
def wrappedChainDisabled : GoError :=
  .wrap "chequebook" (.sentinel .ErrChainDisabled)

/-- Collaborators that all fail with a wrapped `ErrChainDisabled`. -/
def disabledService : Service :=
  { sampleService with
    Balance := fun _ => .error wrappedChainDisabled
    AvailableBalance := fun _ => .error wrappedChainDisabled
    Withdraw := fun _ _ => .error wrappedChainDisabled
    Deposit := fun _ _ => .error wrappedChainDisabled
    LastSentCheque := fun _ => .error wrappedChainDisabled
    LastReceivedCheque := fun _ => .error wrappedChainDisabled
    LastSentCheques := .error wrappedChainDisabled
    LastReceivedCheques := .error wrappedChainDisabled
    CashCheque := fun _ _ => .error wrappedChainDisabled
    CashoutStatus := fun _ _ => .error wrappedChainDisabled }

/-- Collaborators for a peer that never cashed out: `CashoutStatus` fails with
`ErrNoCashout`. -/
def noCashoutService : Service :=
  { sampleService with CashoutStatus := fun _ _ => .error (.sentinel .ErrNoCashout) }

/-- Collaborators whose ledger calls fail with a wrapped `ErrInsufficientFunds`. -/
def insufficientService : Service :=
  { sampleService with
    Withdraw := fun _ _ => .error (.wrap "withdraw" (.sentinel .ErrInsufficientFunds))
    Deposit := fun _ _ => .error (.wrap "deposit" (.sentinel .ErrInsufficientFunds)) }

/-- Collaborators whose received-side lookup fails with `ErrNoCheque` wrapped in
another error. -/
def wrappedNoChequeReceivedService : Service :=
  { sampleService with
    LastReceivedCheque := fun _ => .error (.wrap "last received" (.sentinel .ErrNoCheque)) }

/-- Collaborators whose sent-side lookup fails with `ErrNoCheque` wrapped in
another error. -/
def wrappedNoChequeSentService : Service :=
  { sampleService with
    LastSentCheque := fun _ => .error (.wrap "last sent" (.sentinel .ErrNoCheque)) }

/-- The sample request with amount zero. -/
def zeroAmountRequest : Request :=
  { sampleRequest with amount := "0" }

/-- The sample request with a negative amount. -/
def negativeAmountRequest : Request :=
  { sampleRequest with amount := "-5" }

/-- The sample request with a valid gas limit header on top. -/
def gasLimitRequest : Request :=
  { sampleRequest with gasLimit := some "21000" }

/-! ## Lemmas on requests and the gate -/

theorem withGasPrice_of_ok (r : Request) (h : gasPriceOk r = true) :
    withGasPrice r.ctx r.gasPrice = some (pricedCtx r) := by
  unfold gasPriceOk at h
  unfold withGasPrice pricedCtx
  cases hp : r.gasPrice with
  | none => rfl
  | some price =>
    rw [hp] at h
    cases hs : SetString10 price with
    | none => simp [hs] at h
    | some p => simp [hs]

theorem withGasLimit_of_ok (ctx : Context) (r : Request) (h : gasLimitOk r = true) :
    withGasLimit ctx r.gasLimit = some (limitedCtx ctx r) := by
  unfold gasLimitOk at h
  unfold withGasLimit limitedCtx
  cases hp : r.gasLimit with
  | none => rfl
  | some limit =>
    rw [hp] at h
    cases hs : ParseUint limit with
    | none => simp [hs] at h
    | some l => simp [hs]

theorem parse_of_peerOk (r : Request) (h : peerOk r = true) :
    ∃ peer, ParseHexAddress r.peer = some peer := by
  unfold peerOk at h
  exact Option.isSome_iff_exists.mp h

/-- The trace and gate of `swapCashoutHandler` once the request has passed the
three parsing steps. -/
theorem swapCashoutHandler_parsed (s : Service) (r : Request) (sem : Weighted)
    (peer : SwarmAddress) (hpeer : ParseHexAddress r.peer = some peer)
    (hprice : gasPriceOk r = true) (hlimit : gasLimitOk r = true) :
    swapCashoutHandler s r sem =
      if (sem.TryAcquire 1).1 = false then
        ([Event.tryAcquire false, Event.log .debug, Event.log .error,
          Event.respond (jsonhttp.TooManyRequests
            (.message "simultaneous on-chain operations not supported"))],
          (sem.TryAcquire 1).2)
      else
        match ((sem.TryAcquire 1).2).Release 1 with
        | some freed =>
          (Event.tryAcquire true ::
            cashChequeAdmitted s (limitedCtx (pricedCtx r) r) peer ++ [Event.release], freed)
        | none =>
          (Event.tryAcquire true ::
            cashChequeAdmitted s (limitedCtx (pricedCtx r) r) peer ++ [Event.releasePanic],
            (sem.TryAcquire 1).2) := by
  unfold swapCashoutHandler
  simp only [hpeer, withGasPrice_of_ok r hprice, withGasLimit_of_ok _ r hlimit]

theorem releases_append (a b : List Event) : releases (a ++ b) = releases a + releases b := by
  induction a with
  | nil => simp [releases]
  | cons e t ih => cases e <;> simp [releases, ih] <;> omega

theorem releases_cashChequeAdmitted (s : Service) (ctx : Context) (peer : SwarmAddress) :
    releases (cashChequeAdmitted s ctx peer) = 0 := by
  unfold cashChequeAdmitted
  cases s.CashCheque ctx peer with
  | error err => by_cases h : errorsIs err .ErrChainDisabled = true <;> simp [h, releases]
  | ok tx => simp [releases]

theorem releasePanic_not_mem_cashChequeAdmitted (s : Service) (ctx : Context)
    (peer : SwarmAddress) : Event.releasePanic ∉ cashChequeAdmitted s ctx peer := by
  unfold cashChequeAdmitted
  cases s.CashCheque ctx peer with
  | error err => by_cases h : errorsIs err .ErrChainDisabled = true <;> simp [h]
  | ok tx => simp

theorem tryAcquire_not_mem_cashChequeAdmitted (s : Service) (ctx : Context)
    (peer : SwarmAddress) (b : Bool) :
    Event.tryAcquire b ∉ cashChequeAdmitted s ctx peer := by
  unfold cashChequeAdmitted
  cases s.CashCheque ctx peer with
  | error err => by_cases h : errorsIs err .ErrChainDisabled = true <;> simp [h]
  | ok tx => simp

theorem tryAcquire_release (sem : Weighted) (hvalid : 0 ≤ sem.cur)
    (h : (sem.TryAcquire 1).1 = true) : ((sem.TryAcquire 1).2).Release 1 = some sem := by
  unfold Weighted.TryAcquire at h ⊢
  by_cases hc : sem.size - sem.cur ≥ 1
  · simp only [hc, if_true, Weighted.Release]
    have : ¬ (sem.cur + 1 - 1 < 0) := by omega
    simp only [this, if_false]
    cases sem
    simp
  · simp [hc] at h

/-! ## Lemmas on maps -/

theorem mapGet_mapSet {ν : Type} (m : GoMap ν) (k : String) (v : ν) (q : String) :
    mapGet (mapSet m k v) q = if k = q then some v else mapGet m q := by
  induction m with
  | nil => simp [mapSet, mapGet]
  | cons e t ih =>
    obtain ⟨a, b⟩ := e
    by_cases hak : a = k
    · subst hak
      by_cases haq : a = q <;> simp [mapSet, mapGet, haq]
    · by_cases haq : a = q
      · subst haq
        simp [mapSet, mapGet, hak, Ne.symm hak]
      · simp [mapSet, mapGet, hak, haq, ih]

theorem mem_mapKeys_mapSet {ν : Type} (m : GoMap ν) (k : String) (v : ν) (q : String) :
    q ∈ mapKeys (mapSet m k v) ↔ q = k ∨ q ∈ mapKeys m := by
  induction m with
  | nil => simp [mapSet, mapKeys]
  | cons e t ih =>
    obtain ⟨a, b⟩ := e
    unfold mapKeys at ih ⊢
    by_cases hak : a = k
    · subst hak
      simp [mapSet]
    · simp only [mapSet, hak, if_false, List.map_cons, List.mem_cons, ih]
      tauto

theorem nodup_mapKeys_mapSet {ν : Type} (m : GoMap ν) (k : String) (v : ν)
    (h : (mapKeys m).Nodup) : (mapKeys (mapSet m k v)).Nodup := by
  induction m with
  | nil => simp [mapSet, mapKeys]
  | cons e t ih =>
    obtain ⟨a, b⟩ := e
    have ht : (mapKeys t).Nodup := by
      unfold mapKeys at h ⊢
      exact (List.nodup_cons.mp h).2
    have ha : a ∉ mapKeys t := by
      unfold mapKeys at h ⊢
      exact (List.nodup_cons.mp h).1
    by_cases hak : a = k
    · subst hak
      simpa [mapSet, mapKeys] using h
    · have hmem := mem_mapKeys_mapSet t k v a
      have hnot : a ∉ mapKeys (mapSet t k v) := by
        rw [hmem]
        tauto
      have := ih ht
      unfold mapKeys at this hnot ⊢
      simp only [mapSet, hak, if_false, List.map_cons]
      exact List.nodup_cons.mpr ⟨hnot, this⟩

theorem mapGet_eq_none_iff {ν : Type} (m : GoMap ν) (q : String) :
    mapGet m q = none ↔ q ∉ mapKeys m := by
  induction m with
  | nil => simp [mapGet, mapKeys]
  | cons e t ih =>
    obtain ⟨a, b⟩ := e
    unfold mapKeys at ih ⊢
    by_cases haq : a = q
    · subst haq
      simp [mapGet]
    · simp [mapGet, haq, ih, Ne.symm haq]

theorem mapGet_isSome_iff {ν : Type} (m : GoMap ν) (q : String) :
    (mapGet m q).isSome = true ↔ q ∈ mapKeys m := by
  rw [← not_iff_not, ← mapGet_eq_none_iff]
  cases mapGet m q <;> simp

theorem mapGet_of_mem {ν : Type} (m : GoMap ν) (q : String) (v : ν)
    (h : (mapKeys m).Nodup) (hm : (q, v) ∈ m) : mapGet m q = some v := by
  induction m with
  | nil => simp at hm
  | cons e t ih =>
    obtain ⟨a, b⟩ := e
    have ht : (mapKeys t).Nodup := by
      unfold mapKeys at h ⊢
      exact (List.nodup_cons.mp h).2
    have ha : a ∉ mapKeys t := by
      unfold mapKeys at h ⊢
      exact (List.nodup_cons.mp h).1
    rcases List.mem_cons.mp hm with heq | hmem
    · have h1 : q = a := congrArg Prod.fst heq
      have h2 : v = b := congrArg Prod.snd heq
      subst h1 h2
      simp [mapGet]
    · have hq : q ∈ mapKeys t := by
        unfold mapKeys
        exact List.mem_map.mpr ⟨(q, v), hmem, rfl⟩
      have hne : a ≠ q := fun hh => ha (hh ▸ hq)
      simp [mapGet, hne, ih ht hmem]

/-! ## Lemmas on the loops of `chequebookAllLastHandler` -/

theorem sentLoop_cons (s : Service) (i : String) (j : SignedCheque) (t : GoMap SignedCheque)
    (lcr : GoMap chequebookLastChequesPeerResponse) :
    sentLoop s ((i, j) :: t) lcr =
      sentLoop s t (mapSet lcr i
        { Peer := i, LastSent := some (lastChequeResponse s j), LastReceived := none }) := rfl

theorem receivedLoop_cons (s : Service) (i : String) (j : SignedCheque)
    (t : GoMap SignedCheque) (lcr : GoMap chequebookLastChequesPeerResponse) :
    receivedLoop s ((i, j) :: t) lcr =
      receivedLoop s t
        (match mapGet lcr i with
        | some e => mapSet lcr i { e with LastReceived := some (lastChequeResponse s j) }
        | none =>
          mapSet lcr i
            { Peer := i, LastSent := none, LastReceived := some (lastChequeResponse s j) }) :=
  rfl

theorem nodup_sentLoop (s : Service) (l : GoMap SignedCheque)
    (lcr : GoMap chequebookLastChequesPeerResponse) (h : (mapKeys lcr).Nodup) :
    (mapKeys (sentLoop s l lcr)).Nodup := by
  induction l generalizing lcr with
  | nil => exact h
  | cons e t ih =>
    obtain ⟨i, j⟩ := e
    rw [sentLoop_cons]
    exact ih _ (nodup_mapKeys_mapSet lcr i _ h)

theorem nodup_receivedLoop (s : Service) (l : GoMap SignedCheque)
    (lcr : GoMap chequebookLastChequesPeerResponse) (h : (mapKeys lcr).Nodup) :
    (mapKeys (receivedLoop s l lcr)).Nodup := by
  induction l generalizing lcr with
  | nil => exact h
  | cons e t ih =>
    obtain ⟨i, j⟩ := e
    rw [receivedLoop_cons]
    apply ih
    cases mapGet lcr i with
    | none => exact nodup_mapKeys_mapSet lcr i _ h
    | some e => exact nodup_mapKeys_mapSet lcr i _ h

/-- What the first loop leaves at key `p`. -/
theorem mapGet_sentLoop (s : Service) (l : GoMap SignedCheque)
    (lcr : GoMap chequebookLastChequesPeerResponse) (hl : (mapKeys l).Nodup) (p : String) :
    mapGet (sentLoop s l lcr) p =
      match mapGet l p with
      | some j =>
        some { Peer := p, LastSent := some (lastChequeResponse s j), LastReceived := none }
      | none => mapGet lcr p := by
  induction l generalizing lcr with
  | nil => rfl
  | cons e t ih =>
    obtain ⟨i, j⟩ := e
    have ht : (mapKeys t).Nodup := by
      unfold mapKeys at hl ⊢
      exact (List.nodup_cons.mp hl).2
    have hi : i ∉ mapKeys t := by
      unfold mapKeys at hl ⊢
      exact (List.nodup_cons.mp hl).1
    rw [sentLoop_cons, ih _ ht]
    by_cases hip : i = p
    · subst hip
      have hnone : mapGet t i = none := (mapGet_eq_none_iff t i).mpr hi
      simp [hnone, mapGet, mapGet_mapSet]
    · simp [mapGet, hip, mapGet_mapSet]

/-- What the second loop leaves at key `p`. -/
theorem mapGet_receivedLoop (s : Service) (l : GoMap SignedCheque)
    (lcr : GoMap chequebookLastChequesPeerResponse) (hl : (mapKeys l).Nodup) (p : String) :
    mapGet (receivedLoop s l lcr) p =
      match mapGet l p with
      | some j =>
        match mapGet lcr p with
        | some e => some { e with LastReceived := some (lastChequeResponse s j) }
        | none =>
          some { Peer := p, LastSent := none, LastReceived := some (lastChequeResponse s j) }
      | none => mapGet lcr p := by
  induction l generalizing lcr with
  | nil => rfl
  | cons e t ih =>
    obtain ⟨i, j⟩ := e
    have ht : (mapKeys t).Nodup := by
      unfold mapKeys at hl ⊢
      exact (List.nodup_cons.mp hl).2
    have hi : i ∉ mapKeys t := by
      unfold mapKeys at hl ⊢
      exact (List.nodup_cons.mp hl).1
    rw [receivedLoop_cons, ih _ ht]
    by_cases hip : i = p
    · subst hip
      have hnone : mapGet t i = none := (mapGet_eq_none_iff t i).mpr hi
      cases hg : mapGet lcr i <;> simp [hnone, mapGet, mapGet_mapSet]
    · cases hg : mapGet lcr i <;> simp [mapGet, hip, mapGet_mapSet]

/-- The map `lcr` after both loops, key by key. -/
theorem mapGet_merged (s : Service) (sent received : GoMap SignedCheque)
    (hs : (mapKeys sent).Nodup) (hr : (mapKeys received).Nodup) (p : String) :
    mapGet (receivedLoop s received (sentLoop s sent [])) p =
      if p ∈ mapKeys sent ∨ p ∈ mapKeys received then some (mergedEntry s sent received p)
      else none := by
  rw [mapGet_receivedLoop s received _ hr, mapGet_sentLoop s sent _ hs]
  unfold mergedEntry
  cases hgs : mapGet sent p with
  | none =>
    have h1 : p ∉ mapKeys sent := (mapGet_eq_none_iff sent p).mp hgs
    cases hgr : mapGet received p with
    | none =>
      have h2 : p ∉ mapKeys received := (mapGet_eq_none_iff received p).mp hgr
      simp [h1, h2, mapGet]
    | some j =>
      have h2 : p ∈ mapKeys received := by
        rw [← mapGet_isSome_iff, hgr]; rfl
      simp [h1, h2, mapGet]
  | some i =>
    have h1 : p ∈ mapKeys sent := by
      rw [← mapGet_isSome_iff, hgs]; rfl
    cases hgr : mapGet received p with
    | none => simp [h1]
    | some j => simp [h1]

theorem mem_mapKeys_merged (s : Service) (sent received : GoMap SignedCheque)
    (hs : (mapKeys sent).Nodup) (hr : (mapKeys received).Nodup) (p : String) :
    p ∈ mapKeys (receivedLoop s received (sentLoop s sent [])) ↔
      p ∈ mapKeys sent ∨ p ∈ mapKeys received := by
  rw [← mapGet_isSome_iff, mapGet_merged s sent received hs hr]
  by_cases h : p ∈ mapKeys sent ∨ p ∈ mapKeys received <;> simp [h]

theorem mergeLastCheques_eq (s : Service) (sent received : GoMap SignedCheque)
    (hs : (mapKeys sent).Nodup) (hr : (mapKeys received).Nodup) :
    mergeLastCheques s sent received =
      (mapKeys (receivedLoop s received (sentLoop s sent []))).map
        (mergedEntry s sent received) := by
  unfold mergeLastCheques collectLoop
  apply List.map_congr_left
  intro k hk
  have hmem := (mem_mapKeys_merged s sent received hs hr k).mp hk
  rw [mapGet_merged s sent received hs hr, if_pos hmem]
  rfl

theorem peers_mergeLastCheques (s : Service) (sent received : GoMap SignedCheque)
    (hs : (mapKeys sent).Nodup) (hr : (mapKeys received).Nodup) :
    (mergeLastCheques s sent received).map chequebookLastChequesPeerResponse.Peer =
      mapKeys (receivedLoop s received (sentLoop s sent [])) := by
  rw [mergeLastCheques_eq s sent received hs hr, List.map_map]
  have : (chequebookLastChequesPeerResponse.Peer ∘ mergedEntry s sent received) = id := by
    funext p
    rfl
  rw [this, List.map_id]

/-! ## Lemmas on errors and traces -/

theorem errorsIs_unique (err : GoError) (a b : Sentinel) (ha : errorsIs err a = true)
    (hb : errorsIs err b = true) : a = b := by
  induction err with
  | sentinel s =>
    simp only [errorsIs, decide_eq_true_eq] at ha hb
    rw [← ha, ← hb]
  | other msg => simp [errorsIs] at ha
  | wrap msg inner ih => exact ih ha hb

theorem trace_cashChequeAdmitted (s : Service) (ctx : Context) (peer : SwarmAddress)
    (e : Event) (he : e = Event.release ∨ e = Event.releasePanic) :
    respondsOnceThenQuiet (Event.tryAcquire true :: cashChequeAdmitted s ctx peer ++ [e]) = true ∧
      (responses (Event.tryAcquire true :: cashChequeAdmitted s ctx peer ++ [e])).length = 1 := by
  unfold cashChequeAdmitted
  cases s.CashCheque ctx peer with
  | error err =>
    by_cases h : errorsIs err .ErrChainDisabled = true <;>
      rcases he with rfl | rfl <;> simp [h, respondsOnceThenQuiet, quiet, responses]
  | ok tx => rcases he with rfl | rfl <;> simp [respondsOnceThenQuiet, quiet, responses]

theorem trace_swapCashoutHandler (s : Service) (r : Request) (sem : Weighted) :
    respondsOnceThenQuiet (swapCashoutHandler s r sem).1 = true ∧
      (responses (swapCashoutHandler s r sem).1).length = 1 := by
  unfold swapCashoutHandler
  cases h1 : ParseHexAddress r.peer with
  | none => simp [h1, respondsOnceThenQuiet, quiet, responses]
  | some peer =>
    cases h2 : withGasPrice r.ctx r.gasPrice with
    | none => simp [h1, h2, respondsOnceThenQuiet, quiet, responses]
    | some ctx =>
      cases h3 : withGasLimit ctx r.gasLimit with
      | none => simp [h1, h2, h3, respondsOnceThenQuiet, quiet, responses]
      | some ctx2 =>
        by_cases h : (sem.TryAcquire 1).1 = false
        · simp [h1, h2, h3, h, respondsOnceThenQuiet, quiet, responses]
        · cases hrel : (sem.TryAcquire 1).2.Release 1 with
          | none =>
            simp only [h1, h2, h3, hrel, h, if_false]
            exact trace_cashChequeAdmitted s ctx2 peer _ (Or.inr rfl)
          | some freed =>
            simp only [h1, h2, h3, hrel, h, if_false]
            exact trace_cashChequeAdmitted s ctx2 peer _ (Or.inl rfl)

theorem trace_chequebookBalanceHandler (s : Service) (r : Request) :
    respondsOnceThenQuiet (chequebookBalanceHandler s r) = true ∧
      (responses (chequebookBalanceHandler s r)).length = 1 := by
  unfold chequebookBalanceHandler
  constructor <;> (repeat' split) <;> simp [respondsOnceThenQuiet, quiet, responses]

theorem trace_chequebookAddressHandler (s : Service) (r : Request) :
    respondsOnceThenQuiet (chequebookAddressHandler s r) = true ∧
      (responses (chequebookAddressHandler s r)).length = 1 := by
  unfold chequebookAddressHandler
  constructor <;> simp [respondsOnceThenQuiet, quiet, responses]

theorem trace_chequebookLastPeerHandler (s : Service) (r : Request) :
    respondsOnceThenQuiet (chequebookLastPeerHandler s r) = true ∧
      (responses (chequebookLastPeerHandler s r)).length = 1 := by
  unfold chequebookLastPeerHandler lastPeerReceived
  dsimp only
  constructor <;> (repeat' split) <;> simp [respondsOnceThenQuiet, quiet, responses]

theorem trace_chequebookAllLastHandler (s : Service) (r : Request) :
    respondsOnceThenQuiet (chequebookAllLastHandler s r) = true ∧
      (responses (chequebookAllLastHandler s r)).length = 1 := by
  unfold chequebookAllLastHandler allLastReceived
  constructor <;> (repeat' split) <;> simp [respondsOnceThenQuiet, quiet, responses]

theorem trace_swapCashoutStatusHandler (s : Service) (r : Request) :
    respondsOnceThenQuiet (swapCashoutStatusHandler s r) = true ∧
      (responses (swapCashoutStatusHandler s r)).length = 1 := by
  unfold swapCashoutStatusHandler
  dsimp only
  constructor <;> (repeat' split) <;> simp [respondsOnceThenQuiet, quiet, responses]

theorem trace_chequebookWithdrawHandler (s : Service) (r : Request) :
    respondsOnceThenQuiet (chequebookWithdrawHandler s r) = true ∧
      (responses (chequebookWithdrawHandler s r)).length = 1 := by
  unfold chequebookWithdrawHandler
  dsimp only
  constructor <;> (repeat' split) <;> simp [respondsOnceThenQuiet, quiet, responses]

theorem trace_chequebookDepositHandler (s : Service) (r : Request) :
    respondsOnceThenQuiet (chequebookDepositHandler s r) = true ∧
      (responses (chequebookDepositHandler s r)).length = 1 := by
  unfold chequebookDepositHandler
  dsimp only
  constructor <;> (repeat' split) <;> simp [respondsOnceThenQuiet, quiet, responses]

/-! ## Theorems for the claims -/

/-- C1: a cashout request with a well-formed peer address and well-formed gas
headers that reaches admission while the capacity-1 gate is held gets the
TooManyRequests response and nothing else: its whole trace is the failed
`TryAcquire(1)`, two log lines and that response. It makes no collaborator call
(so `swap.CashCheque` is never invoked), never calls `Release`, and leaves the
gate exactly as it found it, still held. -/
theorem cashout_rejected_when_gate_held (s : Service) (r : Request) (sem : Weighted)
    (hpeer : peerOk r = true) (hprice : gasPriceOk r = true) (hlimit : gasLimitOk r = true)
    (hsize : sem.size = 1) (hheld : sem.cur = 1) :
    responses (swapCashoutHandler s r sem).1 =
        [jsonhttp.TooManyRequests
          (.message "simultaneous on-chain operations not supported")] ∧
      calls (swapCashoutHandler s r sem).1 = [] ∧
      (∀ ctx peer, Event.call (.CashCheque ctx peer) ∉ (swapCashoutHandler s r sem).1) ∧
      (swapCashoutHandler s r sem).1 =
        [Event.tryAcquire false, Event.log .debug, Event.log .error,
          Event.respond (jsonhttp.TooManyRequests
            (.message "simultaneous on-chain operations not supported"))] ∧
      releases (swapCashoutHandler s r sem).1 = 0 ∧
      (swapCashoutHandler s r sem).2 = sem ∧
      (swapCashoutHandler s r sem).2.cur = 1 := by
  obtain ⟨peer, hp⟩ := parse_of_peerOk r hpeer
  have hno : (sem.TryAcquire 1).1 = false := by
    simp [Weighted.TryAcquire, hsize, hheld]
  have h2 : (sem.TryAcquire 1).2 = sem := by
    simp [Weighted.TryAcquire, hsize, hheld]
  rw [swapCashoutHandler_parsed s r sem peer hp hprice hlimit]
  simp [hno, h2, responses, calls, releases, hheld]

/-- Witness of C1: the sample request on the held gate. -/
theorem cashout_rejected_when_gate_held_witness :
    responses (swapCashoutHandler sampleService sampleRequest gateHeld).1 =
        [jsonhttp.TooManyRequests
          (.message "simultaneous on-chain operations not supported")] ∧
      (swapCashoutHandler sampleService sampleRequest gateHeld).2 = gateHeld :=
  have h := cashout_rejected_when_gate_held sampleService sampleRequest gateHeld
    (by decide) (by decide) (by decide) (by decide) (by decide)
  ⟨h.1, h.2.2.2.2.2.1⟩

/-- C2: a cashout request that is admitted by the gate (well-formed peer and gas
headers, `TryAcquire(1)` succeeds on a gate whose held count is not negative)
calls `Release(1)` exactly once, as the last step of the call and without
panicking, whatever `swap.CashCheque` returns; the gate it leaves is the gate it
found, so its held count is unchanged; and any well-formed cashout request
issued on the gate it leaves is admitted in turn. -/
theorem cashout_releases_gate_once (s : Service) (r : Request) (sem : Weighted)
    (hpeer : peerOk r = true) (hprice : gasPriceOk r = true) (hlimit : gasLimitOk r = true)
    (hvalid : 0 ≤ sem.cur) (hadm : (sem.TryAcquire 1).1 = true) :
    releases (swapCashoutHandler s r sem).1 = 1 ∧
      (swapCashoutHandler s r sem).1.getLast? = some Event.release ∧
      Event.releasePanic ∉ (swapCashoutHandler s r sem).1 ∧
      (swapCashoutHandler s r sem).2 = sem ∧
      (swapCashoutHandler s r sem).2.cur = sem.cur ∧
      (∀ (s2 : Service) (r2 : Request), peerOk r2 = true → gasPriceOk r2 = true →
        gasLimitOk r2 = true →
        Event.tryAcquire true ∈ (swapCashoutHandler s2 r2 (swapCashoutHandler s r sem).2).1 ∧
        Event.tryAcquire false ∉
          (swapCashoutHandler s2 r2 (swapCashoutHandler s r sem).2).1) := by
  obtain ⟨peer, hp⟩ := parse_of_peerOk r hpeer
  have hrel := tryAcquire_release sem hvalid hadm
  have hshape : swapCashoutHandler s r sem =
      (Event.tryAcquire true ::
        cashChequeAdmitted s (limitedCtx (pricedCtx r) r) peer ++ [Event.release], sem) := by
    rw [swapCashoutHandler_parsed s r sem peer hp hprice hlimit]
    simp [hadm, hrel]
  have hpan := releasePanic_not_mem_cashChequeAdmitted s (limitedCtx (pricedCtx r) r) peer
  refine ⟨?_, ?_, ?_, ?_, ?_, ?_⟩
  · rw [hshape]
    show releases
      (cashChequeAdmitted s (limitedCtx (pricedCtx r) r) peer ++ [Event.release]) = 1
    rw [releases_append, releases_cashChequeAdmitted]
    rfl
  · rw [hshape]
    show (([Event.tryAcquire true] ++
      cashChequeAdmitted s (limitedCtx (pricedCtx r) r) peer) ++ [Event.release]).getLast?
        = some Event.release
    exact List.getLast?_concat _
  · rw [hshape]
    simp [hpan]
  · rw [hshape]
  · rw [hshape]
  · intro s2 r2 hpeer2 hprice2 hlimit2
    obtain ⟨peer2, hp2⟩ := parse_of_peerOk r2 hpeer2
    rw [hshape]
    have hshape2 : swapCashoutHandler s2 r2 sem =
        (Event.tryAcquire true ::
          cashChequeAdmitted s2 (limitedCtx (pricedCtx r2) r2) peer2 ++ [Event.release],
          sem) := by
      rw [swapCashoutHandler_parsed s2 r2 sem peer2 hp2 hprice2 hlimit2]
      simp [hadm, hrel]
    rw [hshape2]
    have hno := tryAcquire_not_mem_cashChequeAdmitted s2 (limitedCtx (pricedCtx r2) r2)
      peer2 false
    constructor
    · simp
    · simp [hno]

/-- Witness of C2: the sample request on the free capacity-1 gate. -/
theorem cashout_releases_gate_once_witness :
    releases (swapCashoutHandler sampleService sampleRequest gateFree).1 = 1 ∧
      (swapCashoutHandler sampleService sampleRequest gateFree).2 = gateFree :=
  have h := cashout_releases_gate_once sampleService sampleRequest gateFree
    (by decide) (by decide) (by decide) (by decide) (by decide)
  ⟨h.1, h.2.2.2.1⟩

/-- C3: when `swap.LastSentCheques` and `swap.LastReceivedCheques` both succeed,
with maps `sent` and `received`, `chequebookAllLastHandler` answers with the
success payload whose list has exactly one entry per peer of
keys(sent) ∪ keys(received): its length is the size of the union, no peer occurs
twice, and the peers that occur are those of the union. The entry of peer `p`
has `LastSent` present exactly when `sent` has `p`, and then its Beneficiary is
the string of the beneficiary of `sent[p]`, its Chequebook the string of the
chequebook of `sent[p]` and its Payout the cumulative payout of `sent[p]`; it
has `LastReceived` present exactly when `received` has `p`, and then with the
beneficiary, chequebook and cumulative payout of `received[p]`. -/
theorem allLast_merges_by_peer (s : Service) (r : Request)
    (sent received : GoMap SignedCheque)
    (hs : (mapKeys sent).Nodup) (hr : (mapKeys received).Nodup)
    (hsent : s.LastSentCheques = .ok sent) (hrecv : s.LastReceivedCheques = .ok received) :
    ∃ out : List chequebookLastChequesPeerResponse,
      responses (chequebookAllLastHandler s r) =
          [jsonhttp.OK (.lastCheques { LastCheques := out })] ∧
        out.length = ((mapKeys sent).toFinset ∪ (mapKeys received).toFinset).card ∧
        (out.map chequebookLastChequesPeerResponse.Peer).Nodup ∧
        (∀ p, p ∈ out.map chequebookLastChequesPeerResponse.Peer ↔
          p ∈ mapKeys sent ∨ p ∈ mapKeys received) ∧
        (∀ e ∈ out,
          e.LastSent = (mapGet sent e.Peer).map (fun j =>
            { Beneficiary := s.addressString j.Cheque.Beneficiary
              Chequebook := s.addressString j.Cheque.Chequebook
              Payout := j.Cheque.CumulativePayout }) ∧
          e.LastReceived = (mapGet received e.Peer).map (fun j =>
            { Beneficiary := s.addressString j.Cheque.Beneficiary
              Chequebook := s.addressString j.Cheque.Chequebook
              Payout := j.Cheque.CumulativePayout }) ∧
          (∀ j, (e.Peer, j) ∈ sent →
            e.LastSent = some
              { Beneficiary := s.addressString j.Cheque.Beneficiary
                Chequebook := s.addressString j.Cheque.Chequebook
                Payout := j.Cheque.CumulativePayout }) ∧
          (∀ j, (e.Peer, j) ∈ received →
            e.LastReceived = some
              { Beneficiary := s.addressString j.Cheque.Beneficiary
                Chequebook := s.addressString j.Cheque.Chequebook
                Payout := j.Cheque.CumulativePayout }) ∧
          (e.Peer ∉ sent.map Prod.fst → e.LastSent = none) ∧
          (e.Peer ∉ received.map Prod.fst → e.LastReceived = none) ∧
          (e.LastSent.isSome = true ↔ e.Peer ∈ mapKeys sent) ∧
          (e.LastReceived.isSome = true ↔ e.Peer ∈ mapKeys received)) := by
  refine ⟨mergeLastCheques s sent received, ?_, ?_, ?_, ?_, ?_⟩
  · unfold chequebookAllLastHandler allLastReceived
    simp [hsent, hrecv, responses]
  · have hlen : (mergeLastCheques s sent received).length =
        ((mergeLastCheques s sent received).map
          chequebookLastChequesPeerResponse.Peer).length := by simp
    rw [hlen, peers_mergeLastCheques s sent received hs hr]
    have hnd := nodup_receivedLoop s received (sentLoop s sent [])
      (nodup_sentLoop s sent [] (by simp [mapKeys]))
    rw [← List.toFinset_card_of_nodup hnd]
    congr 1
    ext p
    simp [mem_mapKeys_merged s sent received hs hr]
  · rw [peers_mergeLastCheques s sent received hs hr]
    exact nodup_receivedLoop s received (sentLoop s sent [])
      (nodup_sentLoop s sent [] (by simp [mapKeys]))
  · intro p
    rw [peers_mergeLastCheques s sent received hs hr]
    exact mem_mapKeys_merged s sent received hs hr p
  · intro e he
    rw [mergeLastCheques_eq s sent received hs hr] at he
    obtain ⟨k, _, rfl⟩ := List.mem_map.mp he
    have hS : (mergedEntry s sent received k).LastSent =
        (mapGet sent k).map (fun j =>
          ({ Beneficiary := s.addressString j.Cheque.Beneficiary
             Chequebook := s.addressString j.Cheque.Chequebook
             Payout := j.Cheque.CumulativePayout } : chequebookLastChequePeerResponse)) := by
      show (mapGet sent k).map (lastChequeResponse s) = _
      cases mapGet sent k <;> simp [lastChequeResponse]
    have hR : (mergedEntry s sent received k).LastReceived =
        (mapGet received k).map (fun j =>
          ({ Beneficiary := s.addressString j.Cheque.Beneficiary
             Chequebook := s.addressString j.Cheque.Chequebook
             Payout := j.Cheque.CumulativePayout } : chequebookLastChequePeerResponse)) := by
      show (mapGet received k).map (lastChequeResponse s) = _
      cases mapGet received k <;> simp [lastChequeResponse]
    have hP : (mergedEntry s sent received k).Peer = k := rfl
    refine ⟨?_, ?_, ?_, ?_, ?_, ?_, ?_, ?_⟩
    · rw [hP]; exact hS
    · rw [hP]; exact hR
    · intro j hj
      rw [hP] at hj
      rw [hS, mapGet_of_mem sent k j hs hj]
      rfl
    · intro j hj
      rw [hP] at hj
      rw [hR, mapGet_of_mem received k j hr hj]
      rfl
    · intro hk
      rw [hP] at hk
      rw [hS, (mapGet_eq_none_iff sent k).mpr hk]
      rfl
    · intro hk
      rw [hP] at hk
      rw [hR, (mapGet_eq_none_iff received k).mpr hk]
      rfl
    · rw [hP, hS, ← mapGet_isSome_iff]
      cases mapGet sent k <;> simp
    · rw [hP, hR, ← mapGet_isSome_iff]
      cases mapGet received k <;> simp

/-- Witness of C3: the two maps of the sample collaborators; the listing has
three entries, and the entry of peer `bb`, which both maps hold, carries the
fields of both cheques. -/
theorem allLast_merges_by_peer_witness :
    ∃ out : List chequebookLastChequesPeerResponse,
      responses (chequebookAllLastHandler sampleService sampleRequest) =
          [jsonhttp.OK (.lastCheques { LastCheques := out })] ∧ out.length = 3 ∧
        (∀ e ∈ out, e.Peer = "bb" →
          e.LastSent = some { Beneficiary := "xx", Chequebook := "xxx", Payout := 2 } ∧
          e.LastReceived =
            some { Beneficiary := "xxx", Chequebook := "xxxx", Payout := 3 }) := by
  obtain ⟨out, h1, h2, _, _, h5⟩ := allLast_merges_by_peer sampleService sampleRequest
    [("aa", sampleCheque 1), ("bb", sampleCheque 2)]
    [("bb", sampleCheque 3), ("cc", sampleCheque 4)] (by decide) (by decide) rfl rfl
  refine ⟨out, h1, by rw [h2]; decide, ?_⟩
  intro e he hp
  obtain ⟨_, _, hs, hr, _⟩ := h5 e he
  rw [hp] at hs hr
  exact ⟨(hs (sampleCheque 2) (by decide)).trans (by decide),
    (hr (sampleCheque 3) (by decide)).trans (by decide)⟩

/-- C4, as stated, fails: when `Balance` succeeds and `AvailableBalance` fails
with `ErrChainDisabled` the balance handler answers with the internal-error
outcome, and so do the per-peer and the all-peers handlers when their received
side lookup fails with `ErrChainDisabled`. -/
theorem chainDisabled_on_later_call_is_internal_error :
    laterDisabledService.AvailableBalance sampleRequest.ctx =
        .error (.sentinel .ErrChainDisabled) ∧
      errorsIs (.sentinel .ErrChainDisabled) .ErrChainDisabled = true ∧
      responses (chequebookBalanceHandler laterDisabledService sampleRequest) =
        [jsonhttp.InternalServerError (.message errChequebookBalance)] ∧
      responses (chequebookLastPeerHandler laterDisabledService sampleRequest) =
        [jsonhttp.InternalServerError (.message errCantLastChequePeer)] ∧
      responses (chequebookAllLastHandler laterDisabledService sampleRequest) =
        [jsonhttp.InternalServerError (.message errCantLastCheque)] :=
  ⟨rfl, by decide, by decide, by decide, by decide⟩

/-- C4, amended: in each of the five operations (balance, per-peer last cheques,
all-peers last cheques, cashout, cashout status), when the first collaborator
call the operation makes (`Balance`, `LastSentCheque`, `LastSentCheques`,
`CashCheque`, `CashoutStatus`) fails with an error that is `ErrChainDisabled`,
the only response is the not-permitted outcome carrying that error, never an
internal error. -/
theorem chainDisabled_on_first_call_is_not_permitted (s : Service) (r : Request)
    (sem : Weighted) (err : GoError) (hdis : errorsIs err .ErrChainDisabled = true) :
    (s.Balance r.ctx = .error err →
        responses (chequebookBalanceHandler s r) =
          [jsonhttp.MethodNotAllowed (.err err)]) ∧
      (∀ peer, ParseHexAddress r.peer = some peer → s.LastSentCheque peer = .error err →
        responses (chequebookLastPeerHandler s r) =
          [jsonhttp.MethodNotAllowed (.err err)]) ∧
      (s.LastSentCheques = .error err →
        responses (chequebookAllLastHandler s r) =
          [jsonhttp.MethodNotAllowed (.err err)]) ∧
      (∀ peer, ParseHexAddress r.peer = some peer → gasPriceOk r = true →
        gasLimitOk r = true → (sem.TryAcquire 1).1 = true →
        s.CashCheque (limitedCtx (pricedCtx r) r) peer = .error err →
        responses (swapCashoutHandler s r sem).1 =
          [jsonhttp.MethodNotAllowed (.err err)]) ∧
      (∀ peer, ParseHexAddress r.peer = some peer →
        s.CashoutStatus r.ctx peer = .error err →
        responses (swapCashoutStatusHandler s r) =
          [jsonhttp.MethodNotAllowed (.err err)]) := by
  refine ⟨?_, ?_, ?_, ?_, ?_⟩
  · intro h
    unfold chequebookBalanceHandler
    simp [h, hdis, responses]
  · intro peer hp h
    unfold chequebookLastPeerHandler
    simp [hp, h, hdis, responses]
  · intro h
    unfold chequebookAllLastHandler
    simp [h, hdis, responses]
  · intro peer hp hprice hlimit hadm h
    rw [swapCashoutHandler_parsed s r sem peer hp hprice hlimit]
    cases hrel : (sem.TryAcquire 1).2.Release 1 <;>
      simp [hadm, cashChequeAdmitted, h, hdis, responses]
  · intro peer hp h
    unfold swapCashoutStatusHandler
    simp [hp, h, hdis, responses]

/-- Witness of amended C4: collaborators that fail with a wrapped
`ErrChainDisabled`. -/
theorem chainDisabled_on_first_call_is_not_permitted_witness :
    responses (chequebookBalanceHandler disabledService sampleRequest) =
        [jsonhttp.MethodNotAllowed (.err wrappedChainDisabled)] ∧
      responses (swapCashoutHandler disabledService sampleRequest gateFree).1 =
        [jsonhttp.MethodNotAllowed (.err wrappedChainDisabled)] :=
  have h := chainDisabled_on_first_call_is_not_permitted disabledService sampleRequest
    gateFree wrappedChainDisabled (by decide)
  ⟨h.1 rfl, h.2.2.2.1 ⟨[171, 18]⟩ (by decide) (by decide) (by decide) (by decide) rfl⟩

/-- C5: for a well-formed peer address, when `swap.CashoutStatus` fails with an
error that is `ErrNoCashout` the only response of `swapCashoutStatusHandler` is
not-found with the message "no prior cashout"; when it fails with an error that
is `ErrNoCheque` it is not-found with the message "no prior cheque"; and when it
fails with an error that is none of `ErrChainDisabled`, `ErrNoCheque`,
`ErrNoCashout` it is the internal-error outcome. -/
theorem cashoutStatus_absence_is_not_found (s : Service) (r : Request) (peer : SwarmAddress)
    (err : GoError) (hpeer : ParseHexAddress r.peer = some peer)
    (herr : s.CashoutStatus r.ctx peer = .error err) :
    (errorsIs err .ErrNoCashout = true →
        responses (swapCashoutStatusHandler s r) =
          [jsonhttp.NotFound (.message "no prior cashout")]) ∧
      (errorsIs err .ErrNoCheque = true →
        responses (swapCashoutStatusHandler s r) =
          [jsonhttp.NotFound (.message "no prior cheque")]) ∧
      (errorsIs err .ErrChainDisabled = false → errorsIs err .ErrNoCheque = false →
        errorsIs err .ErrNoCashout = false →
        responses (swapCashoutStatusHandler s r) =
          [jsonhttp.InternalServerError (.message errCannotCashStatus)]) := by
  unfold swapCashoutStatusHandler
  simp only [hpeer, herr]
  refine ⟨?_, ?_, ?_⟩
  · intro h
    have h1 : errorsIs err .ErrChainDisabled = false := by
      cases hc : errorsIs err .ErrChainDisabled with
      | false => rfl
      | true => exact absurd (errorsIs_unique err _ _ h hc) (by decide)
    have h2 : errorsIs err .ErrNoCheque = false := by
      cases hc : errorsIs err .ErrNoCheque with
      | false => rfl
      | true => exact absurd (errorsIs_unique err _ _ h hc) (by decide)
    simp [h, h1, h2, responses, errNoCashout]
  · intro h
    have h1 : errorsIs err .ErrChainDisabled = false := by
      cases hc : errorsIs err .ErrChainDisabled with
      | false => rfl
      | true => exact absurd (errorsIs_unique err _ _ h hc) (by decide)
    simp [h, h1, responses, errNoCheque]
  · intro h1 h2 h3
    simp [h1, h2, h3, responses]

/-- Witness of C5: a peer with no prior cashout. -/
theorem cashoutStatus_absence_is_not_found_witness :
    responses (swapCashoutStatusHandler noCashoutService sampleRequest) =
      [jsonhttp.NotFound (.message "no prior cashout")] :=
  (cashoutStatus_absence_is_not_found noCashoutService sampleRequest ⟨[171, 18]⟩
    (.sentinel .ErrNoCashout) (by decide) rfl).1 (by decide)

/-- C6: for a deposit and for a withdraw request with a well-formed amount and
gas price, the response is bad-request "insufficient funds" exactly when the
ledger call fails with an error that is `ErrInsufficientFunds`; any other
failure of the ledger call gives the internal-error outcome; and on success the
response carries exactly the transaction hash the ledger call returned. -/
theorem ledger_insufficient_funds_is_bad_request (s : Service) (r : Request) (amount : Int)
    (hne : r.amount ≠ "") (hamount : SetString10 r.amount = some amount)
    (hprice : gasPriceOk r = true) :
    ((responses (chequebookDepositHandler s r) =
          [jsonhttp.BadRequest (.message "insufficient funds")] ↔
        ∃ err, s.Deposit (pricedCtx r) amount = .error err ∧
          errorsIs err .ErrInsufficientFunds = true) ∧
      (∀ err, s.Deposit (pricedCtx r) amount = .error err →
        errorsIs err .ErrInsufficientFunds = false →
        responses (chequebookDepositHandler s r) =
          [jsonhttp.InternalServerError (.message errChequebookNoDeposit)]) ∧
      (∀ txHash, s.Deposit (pricedCtx r) amount = .ok txHash →
        responses (chequebookDepositHandler s r) =
          [jsonhttp.OK (.tx { TransactionHash := txHash })])) ∧
    ((responses (chequebookWithdrawHandler s r) =
          [jsonhttp.BadRequest (.message "insufficient funds")] ↔
        ∃ err, s.Withdraw (pricedCtx r) amount = .error err ∧
          errorsIs err .ErrInsufficientFunds = true) ∧
      (∀ err, s.Withdraw (pricedCtx r) amount = .error err →
        errorsIs err .ErrInsufficientFunds = false →
        responses (chequebookWithdrawHandler s r) =
          [jsonhttp.InternalServerError (.message errChequebookNoWithdraw)]) ∧
      (∀ txHash, s.Withdraw (pricedCtx r) amount = .ok txHash →
        responses (chequebookWithdrawHandler s r) =
          [jsonhttp.OK (.tx { TransactionHash := txHash })])) := by
  have hctx := withGasPrice_of_ok r hprice
  constructor
  · unfold chequebookDepositHandler
    simp only [hne, if_false, hamount, hctx]
    cases hd : s.Deposit (pricedCtx r) amount with
    | error err =>
      cases hi : errorsIs err .ErrInsufficientFunds <;>
        simp [hi, responses, jsonhttp.BadRequest, jsonhttp.InternalServerError,
          jsonhttp.OK, errChequebookInsufficientFunds]
    | ok txHash =>
      simp [responses, jsonhttp.BadRequest, jsonhttp.InternalServerError, jsonhttp.OK]
  · unfold chequebookWithdrawHandler
    simp only [hne, if_false, hamount, hctx]
    cases hd : s.Withdraw (pricedCtx r) amount with
    | error err =>
      cases hi : errorsIs err .ErrInsufficientFunds <;>
        simp [hi, responses, jsonhttp.BadRequest, jsonhttp.InternalServerError,
          jsonhttp.OK, errChequebookInsufficientFunds]
    | ok txHash =>
      simp [responses, jsonhttp.BadRequest, jsonhttp.InternalServerError, jsonhttp.OK]

/-- Witness of C6: the sample request against a ledger that lacks the funds. -/
theorem ledger_insufficient_funds_is_bad_request_witness :
    responses (chequebookDepositHandler insufficientService sampleRequest) =
        [jsonhttp.BadRequest (.message "insufficient funds")] ∧
      responses (chequebookWithdrawHandler insufficientService sampleRequest) =
        [jsonhttp.BadRequest (.message "insufficient funds")] :=
  have h := ledger_insufficient_funds_is_bad_request insufficientService sampleRequest 5
    (by decide) (by decide) (by decide)
  ⟨h.1.1.mpr ⟨_, rfl, by decide⟩, h.2.1.mpr ⟨_, rfl, by decide⟩⟩

/-- C7, as stated, fails: a deposit request with amount 0, and one with amount
-5, pass the parsing steps and `chequebook.Deposit` is invoked with that
non-positive amount; the request then succeeds if the ledger call does. -/
theorem deposit_invoked_with_non_positive_amount :
    SetString10 zeroAmountRequest.amount = some 0 ∧
      calls (chequebookDepositHandler sampleService zeroAmountRequest) =
        [Call.Deposit { gasPrice := some 10, gasLimit := none } 0] ∧
      responses (chequebookDepositHandler sampleService zeroAmountRequest) =
        [jsonhttp.OK (.tx { TransactionHash := ⟨12⟩ })] ∧
      SetString10 negativeAmountRequest.amount = some (-5) ∧
      calls (chequebookDepositHandler sampleService negativeAmountRequest) =
        [Call.Deposit { gasPrice := some 10, gasLimit := none } (-5)] := by
  decide

/-- C7, amended: the deposit handler makes no sign check. For a deposit request
whose amount parameter is a base-10 integer of any sign, and whose gas price
header is absent or well-formed, `chequebook.Deposit` is invoked exactly once,
with exactly that amount; the only amounts for which no deposit is submitted
are the missing one and the one that is no base-10 integer, both answered with
bad-request. -/
theorem deposit_passes_parsed_amount_unchecked (s : Service) (r : Request) :
    (∀ amount : Int, r.amount ≠ "" → SetString10 r.amount = some amount →
        gasPriceOk r = true →
        calls (chequebookDepositHandler s r) = [Call.Deposit (pricedCtx r) amount]) ∧
      (r.amount = "" ∨ SetString10 r.amount = none →
        calls (chequebookDepositHandler s r) = [] ∧
        responses (chequebookDepositHandler s r) =
          [jsonhttp.BadRequest (.message errChequebookNoAmount)]) := by
  constructor
  · intro amount hne hamount hprice
    unfold chequebookDepositHandler
    simp only [hne, if_false, hamount, withGasPrice_of_ok r hprice]
    cases hd : s.Deposit (pricedCtx r) amount with
    | error err => cases hi : errorsIs err .ErrInsufficientFunds <;> simp [hi, calls]
    | ok txHash => simp [calls]
  · intro h
    unfold chequebookDepositHandler
    by_cases hne : r.amount = ""
    · simp [hne, calls, responses]
    · rcases h with h | h
      · exact absurd h hne
      · simp [hne, h, calls, responses]

/-- Witness of amended C7: a positive and a negative amount both reach the
ledger call. -/
theorem deposit_passes_parsed_amount_unchecked_witness :
    calls (chequebookDepositHandler sampleService sampleRequest) =
        [Call.Deposit (pricedCtx sampleRequest) 5] ∧
      calls (chequebookDepositHandler sampleService negativeAmountRequest) =
        [Call.Deposit (pricedCtx negativeAmountRequest) (-5)] :=
  ⟨(deposit_passes_parsed_amount_unchecked sampleService sampleRequest).1 5
      (by decide) (by decide) (by decide),
    (deposit_passes_parsed_amount_unchecked sampleService negativeAmountRequest).1 (-5)
      (by decide) (by decide) (by decide)⟩

/-- C8, as stated, fails for the gas limit: a deposit and a withdraw request
with the valid header `Gas-Limit: 21000` reach the ledger call with a context
that carries no gas limit, while the cashout handler does pass it on. -/
theorem ledger_ctx_drops_gas_limit :
    gasLimitRequest.gasLimit = some "21000" ∧ ParseUint "21000" = some 21000 ∧
      calls (chequebookDepositHandler sampleService gasLimitRequest) =
        [Call.Deposit { gasPrice := some 10, gasLimit := none } 5] ∧
      calls (chequebookWithdrawHandler sampleService gasLimitRequest) =
        [Call.Withdraw { gasPrice := some 10, gasLimit := none } 5] ∧
      calls (swapCashoutHandler sampleService gasLimitRequest gateFree).1 =
        [Call.CashCheque { gasPrice := some 10, gasLimit := some 21000 } ⟨[171, 18]⟩] := by
  decide

/-- C8, amended: for a deposit and for a withdraw request with a well-formed
amount, the gas price is the one per-call override that reaches the ledger call
through the context: with a valid `Gas-Price` header the context passed carries
exactly that value, without the header it is the request context unchanged (no
override); the `Gas-Limit` header is not read, so the gas limit of the context
passed is that of the request context whatever the header holds. -/
theorem ledger_ctx_carries_gas_price_only (s : Service) (r : Request) (amount : Int)
    (hne : r.amount ≠ "") (hamount : SetString10 r.amount = some amount)
    (hprice : gasPriceOk r = true) :
    ∃ ctx : Context,
      calls (chequebookDepositHandler s r) = [Call.Deposit ctx amount] ∧
      calls (chequebookWithdrawHandler s r) = [Call.Withdraw ctx amount] ∧
      (∀ price p, r.gasPrice = some price → SetString10 price = some p →
        ctx.gasPrice = some p) ∧
      (r.gasPrice = none → ctx = r.ctx) ∧
      ctx.gasLimit = r.ctx.gasLimit ∧
      (∀ header : Option String,
        calls (chequebookDepositHandler s { r with gasLimit := header }) =
          [Call.Deposit ctx amount] ∧
        calls (chequebookWithdrawHandler s { r with gasLimit := header }) =
          [Call.Withdraw ctx amount]) := by
  have hdep : ∀ r2 : Request, r2.amount = r.amount → r2.ctx = r.ctx →
      r2.gasPrice = r.gasPrice →
      calls (chequebookDepositHandler s r2) = [Call.Deposit (pricedCtx r) amount] := by
    intro r2 ha hc hg
    have hp2 : withGasPrice r2.ctx r2.gasPrice = some (pricedCtx r) := by
      rw [hc, hg]
      exact withGasPrice_of_ok r hprice
    unfold chequebookDepositHandler
    simp only [ha, hne, if_false, hamount, hp2]
    cases hd : s.Deposit (pricedCtx r) amount with
    | error err => cases hi : errorsIs err .ErrInsufficientFunds <;> simp [hi, calls]
    | ok txHash => simp [calls]
  have hwd : ∀ r2 : Request, r2.amount = r.amount → r2.ctx = r.ctx →
      r2.gasPrice = r.gasPrice →
      calls (chequebookWithdrawHandler s r2) = [Call.Withdraw (pricedCtx r) amount] := by
    intro r2 ha hc hg
    have hp2 : withGasPrice r2.ctx r2.gasPrice = some (pricedCtx r) := by
      rw [hc, hg]
      exact withGasPrice_of_ok r hprice
    unfold chequebookWithdrawHandler
    simp only [ha, hne, if_false, hamount, hp2]
    cases hd : s.Withdraw (pricedCtx r) amount with
    | error err => cases hi : errorsIs err .ErrInsufficientFunds <;> simp [hi, calls]
    | ok txHash => simp [calls]
  refine ⟨pricedCtx r, hdep r rfl rfl rfl, hwd r rfl rfl rfl, ?_, ?_, ?_, ?_⟩
  · intro price p h1 h2
    simp [pricedCtx, h1, h2, SetGasPrice]
  · intro h1
    simp [pricedCtx, h1]
  · unfold pricedCtx
    cases r.gasPrice with
    | none => rfl
    | some price => cases hsp : SetString10 price <;> simp [hsp, SetGasPrice]
  · intro header
    exact ⟨hdep _ rfl rfl rfl, hwd _ rfl rfl rfl⟩

/-- Witness of amended C8: the sample request, whose gas price header is 10. -/
theorem ledger_ctx_carries_gas_price_only_witness :
    ∃ ctx : Context,
      calls (chequebookDepositHandler sampleService sampleRequest) = [Call.Deposit ctx 5] ∧
      ctx.gasPrice = some 10 := by
  obtain ⟨ctx, h1, _, h3, _⟩ := ledger_ctx_carries_gas_price_only sampleService
    sampleRequest 5 (by decide) (by decide) (by decide)
  exact ⟨ctx, h1, h3 "10" 10 rfl (by decide)⟩

/-- C9: each of the eight handlers, for every request, every combination of
collaborator results and, for the cashout handler, every state of the gate,
writes exactly one response: its trace holds one response, and from that
response on it holds no further response and no collaborator call (only log
lines and the deferred release of the gate). -/
theorem every_handler_responds_exactly_once (s : Service) (r : Request) (sem : Weighted) :
    (respondsOnceThenQuiet (chequebookBalanceHandler s r) = true ∧
        (responses (chequebookBalanceHandler s r)).length = 1) ∧
      (respondsOnceThenQuiet (chequebookAddressHandler s r) = true ∧
        (responses (chequebookAddressHandler s r)).length = 1) ∧
      (respondsOnceThenQuiet (chequebookLastPeerHandler s r) = true ∧
        (responses (chequebookLastPeerHandler s r)).length = 1) ∧
      (respondsOnceThenQuiet (chequebookAllLastHandler s r) = true ∧
        (responses (chequebookAllLastHandler s r)).length = 1) ∧
      (respondsOnceThenQuiet (swapCashoutHandler s r sem).1 = true ∧
        (responses (swapCashoutHandler s r sem).1).length = 1) ∧
      (respondsOnceThenQuiet (swapCashoutStatusHandler s r) = true ∧
        (responses (swapCashoutStatusHandler s r)).length = 1) ∧
      (respondsOnceThenQuiet (chequebookWithdrawHandler s r) = true ∧
        (responses (chequebookWithdrawHandler s r)).length = 1) ∧
      (respondsOnceThenQuiet (chequebookDepositHandler s r) = true ∧
        (responses (chequebookDepositHandler s r)).length = 1) :=
  ⟨trace_chequebookBalanceHandler s r, trace_chequebookAddressHandler s r,
    trace_chequebookLastPeerHandler s r, trace_chequebookAllLastHandler s r,
    trace_swapCashoutHandler s r sem, trace_swapCashoutStatusHandler s r,
    trace_chequebookWithdrawHandler s r, trace_chequebookDepositHandler s r⟩

/-- C10 fails on the received side: for a well-formed peer whose sent-side
lookup returns a cheque, a received-side lookup that fails with `ErrNoCheque`
wrapped in another error (an error that is `ErrNoCheque` for `errors.Is`) gets
the internal-error outcome, not the success payload with `LastReceived` absent;
the same wrapped error on the sent side is taken as absence. -/
theorem lastPeer_wrapped_no_cheque_received_is_internal_error :
    errorsIs (.wrap "last received" (.sentinel .ErrNoCheque)) .ErrNoCheque = true ∧
      wrappedNoChequeReceivedService.LastReceivedCheque ⟨[171, 18]⟩ =
        .error (.wrap "last received" (.sentinel .ErrNoCheque)) ∧
      responses (chequebookLastPeerHandler wrappedNoChequeReceivedService sampleRequest) =
        [jsonhttp.InternalServerError (.message errCantLastChequePeer)] ∧
      responses (chequebookLastPeerHandler wrappedNoChequeSentService sampleRequest) =
        [jsonhttp.OK (.lastChequesPeer
          { Peer := "ab12"
            LastReceived := some (lastChequeResponse sampleService (sampleCheque 40))
            LastSent := none })] :=
  ⟨by decide, rfl, by decide, by decide⟩

end Bee
